import Mathlib

/-!
# Verification of the TOEIC bot's progress analytics and delivery orchestrator

Shallow embedding of the database layer (`src/database/models.py`,
`src/database/operations.py`), the answer handler (`src/main.py`) and the
daily scheduler (`src/scheduler.py`).

Modelling conventions:
* `datetime` values are rational numbers counting days since an arbitrary
  epoch; truncation of a timestamp to UTC midnight (`replace(hour=0, ...)`)
  is `⌊·⌋`.  Python floats are modelled as exact rationals: every quantity
  this development evaluates is far from a truncation boundary, so the
  double-precision rounding error (≤ 2⁻⁴⁰ here) never changes an `int(...)`
  result.
* Python `int(x)` truncates toward zero (`pyInt`).
* A SQLAlchemy session is modelled as an explicit record of the four
  tables; `query(...).first()` is `List.find?`, `query(...).all()` is
  `List.filter`, and a raised exception is `Except.error`.
-/

namespace ToeicBot

/-- Python `int(x)`: truncation toward zero. -/
def pyInt (q : ℚ) : ℤ := if 0 ≤ q then ⌊q⌋ else ⌈q⌉

/-- Python `s.split(sep)` for a single-character separator: splits at
every occurrence and keeps empty pieces. -/
def pySplit (s : String) (sep : Char) : List String :=
  (s.data.foldr (fun c acc =>
    match acc with
    | [] => [[c]]
    | cur :: rest => if c = sep then [] :: cur :: rest else (c :: cur) :: rest)
    [[]]).map List.asString

/-- Python `s.upper()` (the answers handled here are ASCII letters). -/
def pyUpper (s : String) : String := (s.data.map Char.toUpper).asString

/-- Python `int(s)` for the non-negative numeric strings of callback
data; any other string raises `ValueError` (modelled as `none`). -/
def pyParseNat (s : String) : Option ℕ :=
  if s.data ≠ [] ∧ s.data.all Char.isDigit then
    some (s.data.foldl (fun n c => 10 * n + (c.toNat - 48)) 0)
  else none

/-- The four content kinds (`question_type` column). -/
inductive QKind where
  | listening
  | grammar
  | vocabulary
  | reading
deriving DecidableEq, Repr

/-- The loop order `['listening', 'grammar', 'vocabulary', 'reading']`
used both by `_update_daily_progress` and by `get_weak_areas`. -/
def kindOrder : List QKind := [.listening, .grammar, .vocabulary, .reading]

/-- Position of a kind in `kindOrder` (first-seen order, used to state the
stability of the weak-area sort). -/
def kindIdx : QKind → ℕ
  | .listening => 0
  | .grammar => 1
  | .vocabulary => 2
  | .reading => 3

/-- The `users` table (`models.User`).  Only the columns; the two relationship
attributes are derived from the foreign keys of the other tables. -/
structure User where
  id : ℕ
  telegram_id : ℤ
  username : Option String
  first_name : Option String
  target_score : ℤ
  current_estimated_score : ℤ
  delivery_time : String
  timezone : String
  difficulty_level : String
  created_at : ℚ
  last_active : ℚ
  is_active : Bool
deriving DecidableEq, Repr

/-- The `questions` table (`models.Question`); columns irrelevant to the claims
(option texts, explanation, audio fields) are kept as plain strings. -/
structure Question where
  id : ℕ
  question_type : QKind
  difficulty : String
  question_text : String
  correct_answer : String
  used_count : ℕ
deriving DecidableEq, Repr

/-- The `responses` table (`models.Response`). -/
structure Response where
  user_id : ℕ
  question_id : ℕ
  user_answer : String
  is_correct : Bool
  time_taken_seconds : Option ℕ
  answered_at : ℚ
deriving DecidableEq, Repr

/-- The `progress` table (`models.Progress`). -/
structure Progress where
  user_id : ℕ
  date : ℚ
  questions_attempted : ℕ
  questions_correct : ℕ
  accuracy_percentage : ℚ
  listening_accuracy : Option ℚ
  grammar_accuracy : Option ℚ
  vocabulary_accuracy : Option ℚ
  reading_accuracy : Option ℚ
  estimated_toeic_score : Option ℤ
deriving DecidableEq, Repr

/-- Column defaults of `Progress(user_id=..., date=...)`. -/
def Progress.new (uid : ℕ) (date : ℚ) : Progress :=
  { user_id := uid, date := date, questions_attempted := 0,
    questions_correct := 0, accuracy_percentage := 0,
    listening_accuracy := none, grammar_accuracy := none,
    vocabulary_accuracy := none, reading_accuracy := none,
    estimated_toeic_score := none }

/-- The per-kind accuracy column of a `Progress` row
(`getattr(p, f"{q_type}_accuracy")`). -/
def Progress.kindAccuracy (p : Progress) : QKind → Option ℚ
  | .listening => p.listening_accuracy
  | .grammar => p.grammar_accuracy
  | .vocabulary => p.vocabulary_accuracy
  | .reading => p.reading_accuracy

/-- Python `setattr(p, f"{q_type}_accuracy", v)`. -/
def Progress.setKindAccuracy (p : Progress) (k : QKind) (v : ℚ) : Progress :=
  match k with
  | .listening => { p with listening_accuracy := some v }
  | .grammar => { p with grammar_accuracy := some v }
  | .vocabulary => { p with vocabulary_accuracy := some v }
  | .reading => { p with reading_accuracy := some v }

/-- The database: the four tables of `models.py`. -/
structure DB where
  users : List User
  questions : List Question
  responses : List Response
  progress : List Progress
deriving DecidableEq, Repr

/-- Embedding of `DatabaseOperations._estimate_toeic_score` (operations.py:131-150).
Python's float literal `1.67` is the rational `167/100` here (the rounding
error of the double nearest to 1.67 never moves an `int(...)` result for
accuracies that are ratios of counts ≤ tens). -/
def estimate_toeic_score (accuracy : ℚ) : ℤ :=
  if accuracy ≥ 90 then pyInt (800 + (accuracy - 90) * 10)
  else if accuracy ≥ 80 then pyInt (700 + (accuracy - 80) * 10)
  else if accuracy ≥ 70 then pyInt (600 + (accuracy - 70) * 10)
  else if accuracy ≥ 60 then pyInt (500 + (accuracy - 60) * 10)
  else pyInt (400 + accuracy * (167 / 100))

/-- Modelled from the spec's words (§4.1, `estimate_score`): the
piecewise-linear mapping with explicit two-sided range conditions, for
comparison with the source's `estimate_toeic_score`. -/
def estimate_score_spec (accuracy : ℚ) : ℤ :=
  if 90 ≤ accuracy then pyInt (800 + (accuracy - 90) * 10)
  else if 80 ≤ accuracy ∧ accuracy < 90 then pyInt (700 + (accuracy - 80) * 10)
  else if 70 ≤ accuracy ∧ accuracy < 80 then pyInt (600 + (accuracy - 70) * 10)
  else if 60 ≤ accuracy ∧ accuracy < 70 then pyInt (500 + (accuracy - 60) * 10)
  else pyInt (400 + accuracy * (167 / 100))

/-- Branch of `_estimate_toeic_score` taken for accuracy ≥ 90, as a
function of an arbitrary accuracy (used to state boundary continuity). -/
def branch90 (accuracy : ℚ) : ℤ := pyInt (800 + (accuracy - 90) * 10)

/-- Branch taken for 80 ≤ accuracy < 90. -/
def branch80 (accuracy : ℚ) : ℤ := pyInt (700 + (accuracy - 80) * 10)

/-- Branch taken for 70 ≤ accuracy < 80. -/
def branch70 (accuracy : ℚ) : ℤ := pyInt (600 + (accuracy - 70) * 10)

/-- Branch taken for 60 ≤ accuracy < 70. -/
def branch60 (accuracy : ℚ) : ℤ := pyInt (500 + (accuracy - 60) * 10)

/-- Fall-through branch taken for accuracy < 60. -/
def branchLow (accuracy : ℚ) : ℤ := pyInt (400 + accuracy * (167 / 100))

/-- The single error kind the claims need: the spec's `NotFound`
(`save_response` dereferences a `None` question and raises before adding
anything to the session). -/
inductive DbError where
  | notFound
deriving DecidableEq, Repr

/-- Embedding of `DatabaseOperations.get_question_by_id` (operations.py:58-60):
`query(Question).filter_by(id=question_id).first()`. -/
def get_question_by_id (db : DB) (question_id : ℕ) : Option Question :=
  db.questions.find? (fun q => q.id == question_id)

/-- The query of `_update_daily_progress` (operations.py:102-107):
`query(Response).join(User).filter(User.id == user_id,
Response.answered_at >= today)`.  The join on the `Response.user_id`
foreign key contributes the conjunct that the user row exists.  Note the
filter has no upper bound `answered_at < today + 1`. -/
def today_responses (db : DB) (user_id : ℕ) (today : ℚ) : List Response :=
  db.responses.filter (fun r =>
    db.users.any (fun u => u.id == r.user_id && u.id == user_id) &&
    decide (today ≤ r.answered_at))

/-- The comprehension `[r for r in today_responses if r.question.question_type == q_type]`
(operations.py:116); `r.question` is the row joined on
`Response.question_id`. -/
def responsesOfKind (db : DB) (rs : List Response) (k : QKind) : List Response :=
  rs.filter (fun r =>
    (get_question_by_id db r.question_id).map Question.question_type == some k)

/-- One iteration of the per-kind loop of `_update_daily_progress`
(operations.py:115-120): if the kind has responses today, set its accuracy
column to `correct / count * 100`; otherwise leave the column untouched. -/
def setKindStep (db : DB) (rs : List Response) (p : Progress) (k : QKind) :
    Progress :=
  let type_responses := responsesOfKind db rs k
  if type_responses.isEmpty then p
  else
    let type_correct := (type_responses.filter (·.is_correct)).length
    p.setKindAccuracy k ((type_correct : ℚ) / type_responses.length * 100)

/-- The per-kind loop of `_update_daily_progress` (operations.py:115-120),
iterated over the kinds in their fixed loop order. -/
def setKindAccuracies (db : DB) (rs : List Response) (p : Progress) : Progress :=
  kindOrder.foldl (setKindStep db rs) p

/-- The response window of the claim and of the spec's words (§4.1):
the learner's responses with `answered_at` within `[day, day + 1)`; to be
compared with the code's `today_responses`, whose filter has no upper
bound. -/
def window_responses (db : DB) (user_id : ℕ) (day : ℚ) : List Response :=
  db.responses.filter (fun r =>
    r.user_id == user_id && decide (day ≤ r.answered_at) &&
      decide (r.answered_at < day + 1))

/-- The query `query(Progress).filter(Progress.user_id == user_id,
Progress.date == today).first()` (operations.py:93-95). -/
def findProgress (db : DB) (user_id : ℕ) (today : ℚ) : Option Progress :=
  db.progress.find? (fun p => p.user_id == user_id && p.date == today)

/-- The `Progress` row as it stands after `_update_daily_progress` has
mutated it (operations.py:97-123): the get-or-create row, with the counts,
percentages and estimated score recomputed from today's responses when
there are any, and untouched otherwise. -/
def recomputed_progress (db : DB) (user_id : ℕ) (now : ℚ) : Progress :=
  let today : ℚ := ⌊now⌋
  let p0 := (findProgress db user_id today).getD (Progress.new user_id today)
  let rs := today_responses db user_id today
  if rs.isEmpty then p0
  else
    let attempted := rs.length
    let correct := (rs.filter (·.is_correct)).length
    let acc := (correct : ℚ) / attempted * 100
    let p1 := { p0 with questions_attempted := attempted,
                        questions_correct := correct,
                        accuracy_percentage := acc }
    let p2 := setKindAccuracies db rs p1
    { p2 with estimated_toeic_score := some (estimate_toeic_score acc) }

/-- Embedding of `DatabaseOperations._update_daily_progress` (operations.py:88-129).
`today` is `utcnow()` truncated to midnight.  The mutated (or freshly
added) row replaces the matching row — unique by the `(user_id, date)`
invariant — or is appended.  When today's responses are non-empty the
user row (looked up by `id == user_id`, guaranteed to exist by the join in
`today_responses`) additionally receives the new estimated score; `getD`
is never the fallback on that path because the recomputed row always
carries `some` score there. -/
def update_daily_progress (db : DB) (user_id : ℕ) (now : ℚ) : DB :=
  let today : ℚ := ⌊now⌋
  let rs := today_responses db user_id today
  let p' := recomputed_progress db user_id now
  let progress' :=
    if (findProgress db user_id today).isSome then
      db.progress.map (fun p =>
        if p.user_id == user_id && p.date == today then p' else p)
    else db.progress ++ [p']
  if rs.isEmpty then { db with progress := progress' }
  else
    { db with
      progress := progress',
      users := db.users.map (fun u =>
        if u.id == user_id then
          { u with current_estimated_score :=
              p'.estimated_toeic_score.getD u.current_estimated_score }
        else u) }

/-- Embedding of `DatabaseOperations.save_response` (operations.py:63-86).  With an
unresolvable `question_id` the Python code evaluates
`question.correct_answer` on `None` and raises (the spec's `NotFound`)
before anything is added to the session, so the error path carries no
state change.  Otherwise the upper-cased answer is compared with the
upper-cased correct answer, the `Response` row is added, the question's
`used_count` is incremented, both are committed, and the daily progress is
recomputed. -/
def save_response (db : DB) (user_id question_id : ℕ) (user_answer : String)
    (time_taken : Option ℕ) (now : ℚ) : Except DbError (DB × Response) :=
  match get_question_by_id db question_id with
  | none => .error .notFound
  | some question =>
    let is_correct := pyUpper user_answer == pyUpper question.correct_answer
    let response : Response :=
      { user_id := user_id, question_id := question_id,
        user_answer := pyUpper user_answer, is_correct := is_correct,
        time_taken_seconds := time_taken, answered_at := now }
    let db1 : DB :=
      { db with
        responses := db.responses ++ [response],
        questions := db.questions.map (fun q =>
          if q.id == question_id then { q with used_count := q.used_count + 1 }
          else q) }
    .ok (update_daily_progress db1 user_id now, response)

/-- Embedding of `DatabaseOperations.get_or_create_user` (operations.py:17-34).  A new
user gets the column defaults of `models.User`; an existing user's
`last_active` is refreshed.  The autoincrement id of a new row is one more
than the largest existing id. -/
def get_or_create_user (db : DB) (telegram_id : ℤ)
    (username first_name : Option String) (now : ℚ) : DB × User :=
  match db.users.find? (fun u => u.telegram_id == telegram_id) with
  | some u =>
    let u' := { u with last_active := now }
    ({ db with users := db.users.map (fun v =>
        if v.telegram_id == telegram_id then u' else v) }, u')
  | none =>
    let u : User :=
      { id := db.users.foldr (fun v m => max v.id m) 0 + 1,
        telegram_id := telegram_id, username := username,
        first_name := first_name, target_score := 800,
        current_estimated_score := 600, delivery_time := "07:00",
        timezone := "Asia/Seoul", difficulty_level := "intermediate",
        created_at := now, last_active := now, is_active := true }
    ({ db with users := db.users ++ [u] }, u)

/-- Embedding of `TOEICBot.handle_answer` (main.py:311-348).  The callback data is
split on `_`; anything but exactly three parts with head `"answer"` is
ignored (early return, nothing persisted).  Otherwise the answer letter —
not validated against {A, B, C, D} — is handed to `save_response`.  A
non-numeric question id (for which `int(...)` raises before the session
is opened) leaves the state unchanged, and a `save_response` error
propagates after the get-or-create commit; both error paths return the
state reached so far. -/
def handle_answer (db : DB) (telegram_user_id : ℤ) (data : String)
    (now : ℚ) : DB :=
  let parts := pySplit data '_'
  if parts.length ≠ 3 ∨ parts.head? ≠ some "answer" then db
  else
    match pyParseNat (parts.getD 1 "") with
    | none => db
    | some question_id =>
      let user_answer := parts.getD 2 ""
      let gc := get_or_create_user db telegram_user_id none none now
      match save_response gc.1 gc.2.id question_id user_answer none now with
      | .error _ => gc.1
      | .ok (db2, _) => db2

/-- The learner of the spec's end-to-end scenario (§8). -/
def scenarioUser : User :=
  { id := 1, telegram_id := 100, username := none, first_name := none,
    target_score := 800, current_estimated_score := 600,
    delivery_time := "07:00", timezone := "Asia/Seoul",
    difficulty_level := "intermediate", created_at := 0, last_active := 10,
    is_active := true }

/-- First grammar question of the scenario. -/
def scenarioQ1 : Question :=
  { id := 1, question_type := .grammar, difficulty := "intermediate",
    question_text := "g1", correct_answer := "A", used_count := 1 }

/-- Second grammar question of the scenario. -/
def scenarioQ2 : Question :=
  { id := 2, question_type := .grammar, difficulty := "intermediate",
    question_text := "g2", correct_answer := "B", used_count := 1 }

/-- Listening question of the scenario. -/
def scenarioQ3 : Question :=
  { id := 3, question_type := .listening, difficulty := "intermediate",
    question_text := "l1", correct_answer := "C", used_count := 1 }

/-- Correct grammar response 1 (today = day 10; answered at 10.25). -/
def scenarioR1 : Response :=
  { user_id := 1, question_id := 1, user_answer := "A", is_correct := true,
    time_taken_seconds := none, answered_at := 41/4 }

/-- Correct grammar response 2. -/
def scenarioR2 : Response :=
  { user_id := 1, question_id := 2, user_answer := "B", is_correct := true,
    time_taken_seconds := none, answered_at := 41/4 }

/-- Incorrect listening response. -/
def scenarioR3 : Response :=
  { user_id := 1, question_id := 3, user_answer := "A", is_correct := false,
    time_taken_seconds := none, answered_at := 41/4 }

/-- The database of the spec's end-to-end scenario (§8): one learner with
3 responses today — 2 correct grammar, 1 incorrect listening. -/
def scenarioDB : DB :=
  { users := [scenarioUser],
    questions := [scenarioQ1, scenarioQ2, scenarioQ3],
    responses := [scenarioR1, scenarioR2, scenarioR3],
    progress := [] }

/-- The question payload assembled by `generate_daily_content` out of a
successful adapter result (the dict passed to `save_question`; option
texts, explanation and audio fields are collapsed into the columns kept
in `Question`). -/
structure QPayload where
  question_type : QKind
  difficulty : String
  question_text : String
  correct_answer : String
deriving DecidableEq, Repr

/-- The autoincrement primary key for a fresh `questions` row. -/
def nextQuestionId (db : DB) : ℕ :=
  db.questions.foldr (fun q m => max q.id m) 0 + 1

/-- Embedding of `DatabaseOperations.save_question` (operations.py:51-56):
`Question(**question_data)` added and committed. -/
def save_question (db : DB) (p : QPayload) : DB × Question :=
  let q : Question :=
    { id := nextQuestionId db, question_type := p.question_type,
      difficulty := p.difficulty, question_text := p.question_text,
      correct_answer := p.correct_answer, used_count := 0 }
  ({ db with questions := db.questions ++ [q] }, q)

/-- Embedding of `DatabaseOperations.get_all_active_users` (operations.py:46-48). -/
def get_all_active_users (db : DB) : List User :=
  db.users.filter (fun u => u.is_active)

/-- One slot of the generation loops of `generate_daily_content`
(scheduler.py:52-108): a slot whose `try` block fails (generation, audio
synthesis, or a malformed payload — all before the save) is caught,
logged and skipped; a successful payload is persisted immediately and
the saved `Question` appended to the content. -/
def contentStep (acc : DB × List Question) (res : Option QPayload) :
    DB × List Question :=
  match res with
  | none => acc
  | some p =>
    let sq := save_question acc.1 p
    (sq.1, acc.2 ++ [sq.2])

/-- Embedding of `DailyScheduler.generate_daily_content` (scheduler.py:35-110): the
listening slots in order, then the grammar slots, with the adapter's
per-slot outcomes given by the oracles `genL` / `genG` (`none` = that
slot's generation raised). -/
def generate_daily_content (genL genG : ℕ → Option QPayload) (nL nG : ℕ)
    (db : DB) : DB × List Question × List Question :=
  let l := ((List.range nL).map genL).foldl contentStep (db, [])
  let g := ((List.range nG).map genG).foldl contentStep (l.1, [])
  (g.1, l.2, g.2)

/-- One iteration of the per-learner loop of `deliver_to_all_users`
(scheduler.py:214-227), with that learner's whole generation+delivery
attempt abstracted as `step` (returning the state reached, the messages
sent before any exception, and whether the attempt raised): the `except`
arm only logs, so the raised flag is recorded and the loop continues. -/
def deliverStep (step : DB → User → DB × List String × Bool)
    (acc : DB × List String × List (ℤ × Bool)) (u : User) :
    DB × List String × List (ℤ × Bool) :=
  let r := step acc.1 u
  (r.1, acc.2.1 ++ r.2.1, acc.2.2 ++ [(u.telegram_id, r.2.2)])

/-- Embedding of `DailyScheduler.deliver_to_all_users` (scheduler.py:197-232): when
weekend delivery is disabled and the weekday is Saturday (5) or Sunday
(6) the cycle returns immediately with no side effects; otherwise every
active user is attempted in order with per-learner fault isolation.
Returns the final database, the concatenated sent messages and one
`(telegram_id, raised?)` outcome per attempted learner. -/
def deliver_to_all_users (weekday : ℕ) (weekend_delivery : Bool)
    (step : DB → User → DB × List String × Bool) (db : DB) :
    DB × List String × List (ℤ × Bool) :=
  if weekend_delivery = false ∧ 5 ≤ weekday then (db, [], [])
  else (get_all_active_users db).foldl (deliverStep step) (db, [], [])

/-- A listening payload used to instantiate the orchestrator scenario. -/
def lPayload : QPayload :=
  { question_type := .listening, difficulty := "intermediate",
    question_text := "L", correct_answer := "A" }

/-- A grammar payload used to instantiate the orchestrator scenario. -/
def gPayload : QPayload :=
  { question_type := .grammar, difficulty := "intermediate",
    question_text := "G", correct_answer := "B" }

/-- A Python value passed in the `**kwargs` of
`update_user_preferences`. -/
inductive PyValue where
  | int (i : ℤ)
  | str (s : String)
  | bool (b : Bool)
  | rat (q : ℚ)
  | none
deriving DecidableEq, Repr

/-- The attribute names of `models.User` (its mapped columns; the
`responses` / `progress_records` relationship attributes lie outside the
modelled state).  `hasattr(user, key)` is membership here. -/
def userAttrNames : List String :=
  ["id", "telegram_id", "username", "first_name", "target_score",
   "current_estimated_score", "delivery_time", "timezone",
   "difficulty_level", "created_at", "last_active", "is_active"]

/-- Python `getattr(user, key)` on the modelled columns (`none` = missing
attribute). -/
def getattrUser (u : User) : String → Option PyValue
  | "id" => some (.int u.id)
  | "telegram_id" => some (.int u.telegram_id)
  | "username" =>
    some (match u.username with | some s => .str s | Option.none => .none)
  | "first_name" =>
    some (match u.first_name with | some s => .str s | Option.none => .none)
  | "target_score" => some (.int u.target_score)
  | "current_estimated_score" => some (.int u.current_estimated_score)
  | "delivery_time" => some (.str u.delivery_time)
  | "timezone" => some (.str u.timezone)
  | "difficulty_level" => some (.str u.difficulty_level)
  | "created_at" => some (.rat u.created_at)
  | "last_active" => some (.rat u.last_active)
  | "is_active" => some (.bool u.is_active)
  | _ => none

/-- Python `setattr(user, key, value)` on the modelled typed columns; a value
whose type does not fit the column leaves the model state unchanged
(Python's `setattr` would store it untyped — the claims are settled for
type-correct updates, see `wellTypedAttr`). -/
def setattrUser (u : User) : String → PyValue → User
  | "id", .int i => { u with id := i.toNat }
  | "telegram_id", .int i => { u with telegram_id := i }
  | "username", .str s => { u with username := some s }
  | "username", .none => { u with username := Option.none }
  | "first_name", .str s => { u with first_name := some s }
  | "first_name", .none => { u with first_name := Option.none }
  | "target_score", .int i => { u with target_score := i }
  | "current_estimated_score", .int i => { u with current_estimated_score := i }
  | "delivery_time", .str s => { u with delivery_time := s }
  | "timezone", .str s => { u with timezone := s }
  | "difficulty_level", .str s => { u with difficulty_level := s }
  | "created_at", .rat q => { u with created_at := q }
  | "last_active", .rat q => { u with last_active := q }
  | "is_active", .bool b => { u with is_active := b }
  | _, _ => u

/-- Does the value's type fit the column it is assigned to? -/
def wellTypedAttr : String → PyValue → Bool
  | "id", .int i => decide (0 ≤ i)
  | "telegram_id", .int _ => true
  | "username", .str _ => true
  | "username", .none => true
  | "first_name", .str _ => true
  | "first_name", .none => true
  | "target_score", .int _ => true
  | "current_estimated_score", .int _ => true
  | "delivery_time", .str _ => true
  | "timezone", .str _ => true
  | "difficulty_level", .str _ => true
  | "created_at", .rat _ => true
  | "last_active", .rat _ => true
  | "is_active", .bool _ => true
  | _, _ => false

/-- One iteration of the kwargs loop of `update_user_preferences`
(operations.py:40-42): `if hasattr(user, key): setattr(user, key,
value)`. -/
def applyKwarg (u : User) (kv : String × PyValue) : User :=
  if kv.1 ∈ userAttrNames then setattrUser u kv.1 kv.2 else u

/-- Embedding of `DatabaseOperations.update_user_preferences` (operations.py:36-44):
for an unknown telegram id nothing happens and the absent value is
returned (despite the declared `User` return type); otherwise the loop
applies each kwarg whose key names an existing attribute and the mutated
user is committed and returned. -/
def update_user_preferences (db : DB) (telegram_id : ℤ)
    (kwargs : List (String × PyValue)) : DB × Option User :=
  match db.users.find? (fun u => u.telegram_id == telegram_id) with
  | Option.none => (db, none)
  | some u =>
    let u' := kwargs.foldl applyKwarg u
    ({ db with users := db.users.map (fun v =>
        if v.telegram_id == telegram_id then u' else v) }, some u')

/-- The per-day activity probe of `_calculate_streak`
(operations.py:228-234): is there a `Progress` row of the learner at that
date with `questions_attempted > 0`? (`.first()` being non-`None` is
`any`.) -/
def hasActivity (db : DB) (user_id : ℕ) (date : ℚ) : Bool :=
  db.progress.any (fun p =>
    p.user_id == user_id && p.date == date &&
      decide (0 < p.questions_attempted))

/-- The `for i in range(365)` loop of `_calculate_streak` with its early
`break`: counts consecutive `true`s of `active` from offset `i` while
`fuel` iterations remain. -/
def streakLoop (active : ℕ → Bool) : ℕ → ℕ → ℕ
  | _, 0 => 0
  | i, fuel + 1 => if active i then streakLoop active (i + 1) fuel + 1 else 0

/-- Embedding of `DatabaseOperations._calculate_streak` (operations.py:221-241):
consecutive active days counted backward from today (UTC midnight),
bounded by 365. -/
def calculate_streak (db : DB) (user_id : ℕ) (now : ℚ) : ℕ :=
  let today : ℚ := ⌊now⌋
  streakLoop (fun i => hasActivity db user_id (today - i)) 0 365

/-- Embedding of `DatabaseOperations.get_user_progress` (operations.py:153-165): `[]`
for an unknown learner; otherwise the learner's `Progress` rows with
`date >= utcnow() - days`, ordered by date descending (the SQL
`ORDER BY`, modelled as an insertion sort on `≥`). -/
def get_user_progress (db : DB) (telegram_id : ℤ) (days : ℕ) (now : ℚ) :
    List Progress :=
  match db.users.find? (fun u => u.telegram_id == telegram_id) with
  | none => []
  | some user =>
    List.insertionSort (fun a b => b.date ≤ a.date)
      (db.progress.filter (fun p =>
        p.user_id == user.id && decide (now - days ≤ p.date)))

/-- The non-null per-day accuracy observations of a kind across the
window's rows (the list comprehension of operations.py:177-181). -/
def kindObservations (records : List Progress) (k : QKind) : List ℚ :=
  records.filterMap (fun p => p.kindAccuracy k)

/-- The sort key of `sorted(weak_areas.items(), key=lambda x: x[1])`:
comparison by stored average accuracy. -/
def valLE (a b : QKind × ℚ) : Prop := a.2 ≤ b.2

instance : DecidableRel valLE :=
  fun a b => inferInstanceAs (Decidable (a.2 ≤ b.2))

instance : IsTotal (QKind × ℚ) valLE := ⟨fun a b => le_total a.2 b.2⟩

instance : IsTrans (QKind × ℚ) valLE :=
  ⟨fun _ _ _ hab hbc => le_trans hab hbc⟩

/-- First-seen kind order on pairs (dict insertion order = the fixed kind
loop order), used to state the stability of the sort. -/
def idxLt (a b : QKind × ℚ) : Prop := kindIdx a.1 < kindIdx b.1

/-- Strictly increasing by average, or tied with the first-seen kind
order deciding: the order a stable ascending sort guarantees. -/
def stableR (a b : QKind × ℚ) : Prop :=
  a.2 < b.2 ∨ (a.2 = b.2 ∧ kindIdx a.1 < kindIdx b.1)

/-- The averaging-and-sorting core of `get_weak_areas`
(operations.py:171-187) as a function of the fetched window: `{}` when
the window is empty; otherwise one entry per kind with data, carrying the
arithmetic mean of its observations, sorted ascending by mean (Python's
`sorted` is stable; insertion sort refines it; the pre-sort entry order
is the dict insertion order, i.e. the fixed kind loop order). -/
def weakAreasOf (records : List Progress) : List (QKind × ℚ) :=
  if records.isEmpty then []
  else
    List.insertionSort valLE
      (kindOrder.filterMap (fun k =>
        let accuracies := kindObservations records k
        if accuracies.isEmpty then none
        else some (k, accuracies.sum / accuracies.length)))

/-- Embedding of `DatabaseOperations.get_weak_areas` (operations.py:167-187). -/
def get_weak_areas (db : DB) (telegram_id : ℤ) (days : ℕ) (now : ℚ) :
    List (QKind × ℚ) :=
  weakAreasOf (get_user_progress db telegram_id days now)

/-- Database for the inbound-answer claims: one learner (telegram id 42,
row id 1) with no responses yet. -/
def answerUser : User :=
  { id := 1, telegram_id := 42, username := none, first_name := none,
    target_score := 800, current_estimated_score := 600,
    delivery_time := "07:00", timezone := "Asia/Seoul",
    difficulty_level := "intermediate", created_at := 0, last_active := 0,
    is_active := true }

/-- The single stored question of the inbound-answer database. -/
def answerQuestion : Question :=
  { id := 1, question_type := .grammar, difficulty := "intermediate",
    question_text := "q", correct_answer := "A", used_count := 0 }

/-- One learner, one question, no responses, no progress rows. -/
def dbAnswer : DB :=
  { users := [answerUser], questions := [answerQuestion],
    responses := [], progress := [] }

/-- A progress row (day 9) with listening 50 and grammar 80, used to
instantiate the weak-area properties. -/
def progressRow1 : Progress :=
  { user_id := 1, date := 9, questions_attempted := 5,
    questions_correct := 3, accuracy_percentage := 60,
    listening_accuracy := some 50, grammar_accuracy := some 80,
    vocabulary_accuracy := none, reading_accuracy := none,
    estimated_toeic_score := some 500 }

/-- A progress row (day 10) with listening 70 and vocabulary 80. -/
def progressRow2 : Progress :=
  { user_id := 1, date := 10, questions_attempted := 4,
    questions_correct := 3, accuracy_percentage := 75,
    listening_accuracy := some 70, grammar_accuracy := none,
    vocabulary_accuracy := some 80, reading_accuracy := none,
    estimated_toeic_score := some 650 }

/-- One learner with the two progress rows above. -/
def dbProgress : DB :=
  { users := [answerUser], questions := [], responses := [],
    progress := [progressRow1, progressRow2] }

end ToeicBot

namespace ToeicBot

/-- Evaluation of `==` on `QKind` at equal arguments. -/
theorem qkind_beq_self (a : QKind) : (a == a) = true := by cases a <;> rfl

/-- Evaluation of `==` on `QKind` at unequal arguments. -/
theorem qkind_beq_false {a b : QKind} (h : ¬ a = b) : (a == b) = false := by
  cases a <;> cases b <;> first | rfl | exact absurd rfl h

/-- The update `setKindAccuracy` only touches the four per-kind accuracy columns. -/
theorem setKindAccuracy_fields (p : Progress) (k : QKind) (v : ℚ) :
    (p.setKindAccuracy k v).user_id = p.user_id ∧
    (p.setKindAccuracy k v).date = p.date ∧
    (p.setKindAccuracy k v).questions_attempted = p.questions_attempted ∧
    (p.setKindAccuracy k v).questions_correct = p.questions_correct ∧
    (p.setKindAccuracy k v).accuracy_percentage = p.accuracy_percentage ∧
    (p.setKindAccuracy k v).estimated_toeic_score = p.estimated_toeic_score := by
  cases k <;> exact ⟨rfl, rfl, rfl, rfl, rfl, rfl⟩

/-- The update `setKindAccuracy` on kind `k` leaves the accuracy column of any other
kind unchanged. -/
theorem kindAccuracy_setKindAccuracy_ne (p : Progress) {k k' : QKind}
    (h : ¬ k = k') (v : ℚ) :
    (p.setKindAccuracy k v).kindAccuracy k' = p.kindAccuracy k' := by
  cases k <;> cases k' <;> first | rfl | exact absurd rfl h

/-- One loop iteration leaves the non-accuracy columns unchanged. -/
theorem setKindStep_fields (db : DB) (rs : List Response) (p : Progress)
    (k : QKind) :
    (setKindStep db rs p k).user_id = p.user_id ∧
    (setKindStep db rs p k).date = p.date ∧
    (setKindStep db rs p k).questions_attempted = p.questions_attempted ∧
    (setKindStep db rs p k).questions_correct = p.questions_correct ∧
    (setKindStep db rs p k).accuracy_percentage = p.accuracy_percentage ∧
    (setKindStep db rs p k).estimated_toeic_score = p.estimated_toeic_score := by
  cases hemp : (responsesOfKind db rs k).isEmpty with
  | true => simp [setKindStep, hemp]
  | false =>
    simp only [setKindStep, hemp, Bool.false_eq_true, if_false]
    exact setKindAccuracy_fields p k _

/-- One loop iteration on kind `k` leaves the accuracy column of any
other kind unchanged. -/
theorem setKindStep_kindAccuracy_ne (db : DB) (rs : List Response)
    (p : Progress) {k k' : QKind} (h : ¬ k = k') :
    (setKindStep db rs p k).kindAccuracy k' = p.kindAccuracy k' := by
  cases hemp : (responsesOfKind db rs k).isEmpty with
  | true => simp only [setKindStep, hemp, if_true]
  | false =>
    simp only [setKindStep, hemp, Bool.false_eq_true, if_false]
    exact kindAccuracy_setKindAccuracy_ne p h _

/-- The update `setKindAccuracy` on kind `k` writes the accuracy column of `k`. -/
theorem kindAccuracy_setKindAccuracy_self (p : Progress) (k : QKind) (v : ℚ) :
    (p.setKindAccuracy k v).kindAccuracy k = some v := by
  cases k <;> rfl

/-- The value of the loop iteration on its own kind: untouched when the
kind has no responses, the correct ratio × 100 otherwise. -/
theorem setKindStep_kindAccuracy_self (db : DB) (rs : List Response)
    (p : Progress) (k : QKind) :
    (setKindStep db rs p k).kindAccuracy k =
      if (responsesOfKind db rs k).isEmpty then p.kindAccuracy k
      else some ((((responsesOfKind db rs k).filter (·.is_correct)).length : ℚ) /
        ((responsesOfKind db rs k).length : ℚ) * 100) := by
  cases hemp : (responsesOfKind db rs k).isEmpty with
  | true => simp only [setKindStep, hemp, if_true]
  | false =>
    simp only [setKindStep, hemp, Bool.false_eq_true, if_false]
    exact kindAccuracy_setKindAccuracy_self p k _

/-- Loop iterations leave `user_id` unchanged. -/
theorem setKindStep_user_id (db : DB) (rs : List Response) (p : Progress)
    (k : QKind) : (setKindStep db rs p k).user_id = p.user_id :=
  (setKindStep_fields db rs p k).1

/-- Loop iterations leave `date` unchanged. -/
theorem setKindStep_date (db : DB) (rs : List Response) (p : Progress)
    (k : QKind) : (setKindStep db rs p k).date = p.date :=
  (setKindStep_fields db rs p k).2.1

/-- Loop iterations leave `questions_attempted` unchanged. -/
theorem setKindStep_attempted (db : DB) (rs : List Response) (p : Progress)
    (k : QKind) :
    (setKindStep db rs p k).questions_attempted = p.questions_attempted :=
  (setKindStep_fields db rs p k).2.2.1

/-- Loop iterations leave `questions_correct` unchanged. -/
theorem setKindStep_correct (db : DB) (rs : List Response) (p : Progress)
    (k : QKind) :
    (setKindStep db rs p k).questions_correct = p.questions_correct :=
  (setKindStep_fields db rs p k).2.2.2.1

/-- Loop iterations leave `accuracy_percentage` unchanged. -/
theorem setKindStep_accuracy (db : DB) (rs : List Response) (p : Progress)
    (k : QKind) :
    (setKindStep db rs p k).accuracy_percentage = p.accuracy_percentage :=
  (setKindStep_fields db rs p k).2.2.2.2.1

/-- The whole per-kind loop leaves `user_id` unchanged. -/
theorem setKindAccuracies_user_id (db : DB) (rs : List Response)
    (p : Progress) : (setKindAccuracies db rs p).user_id = p.user_id := by
  simp only [setKindAccuracies, kindOrder, List.foldl, setKindStep_user_id]

/-- The whole per-kind loop leaves `date` unchanged. -/
theorem setKindAccuracies_date (db : DB) (rs : List Response)
    (p : Progress) : (setKindAccuracies db rs p).date = p.date := by
  simp only [setKindAccuracies, kindOrder, List.foldl, setKindStep_date]

/-- The whole per-kind loop leaves `questions_attempted` unchanged. -/
theorem setKindAccuracies_attempted (db : DB) (rs : List Response)
    (p : Progress) :
    (setKindAccuracies db rs p).questions_attempted =
      p.questions_attempted := by
  simp only [setKindAccuracies, kindOrder, List.foldl, setKindStep_attempted]

/-- The whole per-kind loop leaves `questions_correct` unchanged. -/
theorem setKindAccuracies_correct (db : DB) (rs : List Response)
    (p : Progress) :
    (setKindAccuracies db rs p).questions_correct = p.questions_correct := by
  simp only [setKindAccuracies, kindOrder, List.foldl, setKindStep_correct]

/-- The whole per-kind loop leaves `accuracy_percentage` unchanged. -/
theorem setKindAccuracies_accuracy (db : DB) (rs : List Response)
    (p : Progress) :
    (setKindAccuracies db rs p).accuracy_percentage =
      p.accuracy_percentage := by
  simp only [setKindAccuracies, kindOrder, List.foldl, setKindStep_accuracy]

/-- The per-kind loop writes each kind's accuracy column exactly when the
kind has responses, and leaves it untouched otherwise. -/
theorem setKindAccuracies_kindAccuracy (db : DB) (rs : List Response)
    (p : Progress) (k : QKind) :
    (setKindAccuracies db rs p).kindAccuracy k =
      if (responsesOfKind db rs k).isEmpty then p.kindAccuracy k
      else some ((((responsesOfKind db rs k).filter (·.is_correct)).length : ℚ) /
        ((responsesOfKind db rs k).length : ℚ) * 100) := by
  cases k with
  | listening =>
    simp only [setKindAccuracies, kindOrder, List.foldl]
    rw [setKindStep_kindAccuracy_ne _ _ _ (by decide),
      setKindStep_kindAccuracy_ne _ _ _ (by decide),
      setKindStep_kindAccuracy_ne _ _ _ (by decide)]
    exact setKindStep_kindAccuracy_self db rs p .listening
  | grammar =>
    simp only [setKindAccuracies, kindOrder, List.foldl]
    rw [setKindStep_kindAccuracy_ne _ _ _ (by decide),
      setKindStep_kindAccuracy_ne _ _ _ (by decide),
      setKindStep_kindAccuracy_self db rs _ .grammar,
      setKindStep_kindAccuracy_ne _ _ _ (by decide)]
  | vocabulary =>
    simp only [setKindAccuracies, kindOrder, List.foldl]
    rw [setKindStep_kindAccuracy_ne _ _ _ (by decide),
      setKindStep_kindAccuracy_self db rs _ .vocabulary,
      setKindStep_kindAccuracy_ne _ _ _ (by decide),
      setKindStep_kindAccuracy_ne _ _ _ (by decide)]
  | reading =>
    simp only [setKindAccuracies, kindOrder, List.foldl]
    rw [setKindStep_kindAccuracy_self db rs _ .reading,
      setKindStep_kindAccuracy_ne _ _ _ (by decide),
      setKindStep_kindAccuracy_ne _ _ _ (by decide),
      setKindStep_kindAccuracy_ne _ _ _ (by decide)]

/-- Updating the count/percentage/score columns leaves the per-kind
accuracy columns unchanged. -/
theorem kindAccuracy_counts_update (p : Progress) (a c : ℕ) (q : ℚ)
    (k : QKind) :
    (Progress.kindAccuracy
      { p with questions_attempted := a, questions_correct := c,
               accuracy_percentage := q } k) = p.kindAccuracy k := by
  cases k <;> rfl

/-- Setting `estimated_toeic_score` leaves the per-kind accuracy columns
unchanged. -/
theorem kindAccuracy_estimated_update (p : Progress) (s : Option ℤ)
    (k : QKind) :
    (Progress.kindAccuracy { p with estimated_toeic_score := s } k) =
      p.kindAccuracy k := by
  cases k <;> rfl

/-- Under the invariant that no stored response postdates the current day
(`answered_at` is set to the insertion time), and given that the learner's
user row exists (the recompute is only reached through `save_response`,
whose join requires it), the code's lower-bounded filter fetches exactly
the `[day, day + 1)` window of the spec. -/
theorem today_responses_eq_window (db : DB) (user_id : ℕ) (day : ℚ)
    (hfut : ∀ r ∈ db.responses, r.answered_at < day + 1)
    (huser : db.users.any (fun u => u.id == user_id) = true) :
    today_responses db user_id day = window_responses db user_id day := by
  unfold today_responses window_responses
  apply List.filter_congr
  intro r hr
  have hlt : decide (r.answered_at < day + 1) = true := by
    simp [hfut r hr]
  have hany : db.users.any (fun u => u.id == r.user_id && u.id == user_id) =
      (r.user_id == user_id) := by
    rw [Bool.eq_iff_iff]
    simp only [List.any_eq_true, Bool.and_eq_true, beq_iff_eq]
    constructor
    · rintro ⟨u, _, h2, h3⟩
      rw [← h2, h3]
    · rintro h
      obtain ⟨u, hu2, h4⟩ := List.any_eq_true.mp huser
      rw [beq_iff_eq] at h4
      exact ⟨u, hu2, by rw [h4, h], h4⟩
  rw [hany, hlt, Bool.and_true]

/-- A `find?` over a list in which every matching element was replaced by a
matching `p'` returns `p'` exactly when the original `find?` succeeded. -/
theorem find_replaced {α : Type} (q : α → Bool) (p' : α) (hq : q p' = true) :
    ∀ l : List α,
      List.find? q (l.map fun x => if q x then p' else x) =
        (List.find? q l).map fun _ => p'
  | [] => rfl
  | x :: xs => by
    cases hx : q x with
    | true => simp [List.find?_cons, hx, hq]
    | false => simp [List.find?_cons, hx, find_replaced q p' hq xs]

/-- The recomputed row carries the learner id and the day as its key. -/
theorem recomputed_progress_key (db : DB) (uid : ℕ) (now : ℚ) :
    (recomputed_progress db uid now).user_id = uid ∧
    (recomputed_progress db uid now).date = (⌊now⌋ : ℚ) := by
  have hp0 : ((findProgress db uid (⌊now⌋ : ℚ)).getD
        (Progress.new uid ⌊now⌋)).user_id = uid ∧
      ((findProgress db uid (⌊now⌋ : ℚ)).getD
        (Progress.new uid ⌊now⌋)).date = (⌊now⌋ : ℚ) := by
    cases hfp : findProgress db uid (⌊now⌋ : ℚ) with
    | none => simp [Progress.new]
    | some p =>
      have hkey := List.find?_some hfp
      simp only [Bool.and_eq_true, beq_iff_eq] at hkey
      simp [hkey.1, hkey.2]
  cases hemp : (today_responses db uid (⌊now⌋ : ℚ)).isEmpty with
  | true => simpa [recomputed_progress, hemp] using hp0
  | false =>
    simp only [recomputed_progress, hemp, Bool.false_eq_true, if_false]
    exact ⟨by rw [setKindAccuracies_user_id]; exact hp0.1,
      by rw [setKindAccuracies_date]; exact hp0.2⟩

/-- After `_update_daily_progress`, looking the `(learner, day)` row up
again yields exactly the recomputed row (the mutated row replaces the old
one, or the fresh row is appended). -/
theorem findProgress_update (db : DB) (uid : ℕ) (now : ℚ) :
    findProgress (update_daily_progress db uid now) uid ⌊now⌋ =
      some (recomputed_progress db uid now) := by
  have hkey := recomputed_progress_key db uid now
  have hq : ((recomputed_progress db uid now).user_id == uid &&
      (recomputed_progress db uid now).date == (⌊now⌋ : ℚ)) = true := by
    simp [hkey.1, hkey.2]
  have hprog : (update_daily_progress db uid now).progress =
      if (findProgress db uid (⌊now⌋ : ℚ)).isSome then
        db.progress.map (fun p =>
          if p.user_id == uid && p.date == (⌊now⌋ : ℚ) then
            recomputed_progress db uid now
          else p)
      else db.progress ++ [recomputed_progress db uid now] := by
    cases hemp : (today_responses db uid (⌊now⌋ : ℚ)).isEmpty with
    | true => simp only [update_daily_progress, hemp, if_true]
    | false => simp only [update_daily_progress, hemp, Bool.false_eq_true,
        if_false]
  unfold findProgress
  rw [hprog]
  cases hfp : findProgress db uid (⌊now⌋ : ℚ) with
  | some p =>
    simp only [hfp, Option.isSome_some, if_true]
    rw [find_replaced (fun p : Progress => p.user_id == uid &&
      p.date == (⌊now⌋ : ℚ)) (recomputed_progress db uid now) hq db.progress]
    have hfind : List.find?
        (fun p => p.user_id == uid && p.date == (⌊now⌋ : ℚ)) db.progress =
        some p := hfp
    rw [hfind]
    rfl
  | none =>
    simp only [hfp, Option.isSome_none, Bool.false_eq_true, if_false]
    rw [List.find?_append]
    have hfind : List.find?
        (fun p => p.user_id == uid && p.date == (⌊now⌋ : ℚ)) db.progress =
        none := hfp
    rw [hfind]
    simp [List.find?_cons, hq]

/-- Evaluation of the recomputed `Progress` row on the spec's end-to-end
scenario: 3 responses today, 2 correct grammar, 1 incorrect listening. -/
theorem scenario_recomputed_progress :
    recomputed_progress scenarioDB 1 (21/2) =
    { user_id := 1, date := 10, questions_attempted := 3,
      questions_correct := 2, accuracy_percentage := 200/3,
      listening_accuracy := some 0, grammar_accuracy := some 100,
      vocabulary_accuracy := none, reading_accuracy := none,
      estimated_toeic_score := some 566 } := by
  have hfl : (⌊(21/2 : ℚ)⌋ : ℚ) = 10 := by norm_num
  have hrs : today_responses scenarioDB 1 10 =
      [scenarioR1, scenarioR2, scenarioR3] := by
    simp [today_responses, scenarioDB, scenarioUser, scenarioR1, scenarioR2,
      scenarioR3, List.filter]
    norm_num
  have hfp : findProgress scenarioDB 1 10 = none := by
    simp [findProgress, scenarioDB]
  have hset : setKindAccuracies scenarioDB [scenarioR1, scenarioR2, scenarioR3]
      { user_id := 1, date := 10, questions_attempted := 3,
        questions_correct := 2, accuracy_percentage := 200/3,
        listening_accuracy := none, grammar_accuracy := none,
        vocabulary_accuracy := none, reading_accuracy := none,
        estimated_toeic_score := none } =
      { user_id := 1, date := 10, questions_attempted := 3,
        questions_correct := 2, accuracy_percentage := 200/3,
        listening_accuracy := some 0, grammar_accuracy := some 100,
        vocabulary_accuracy := none, reading_accuracy := none,
        estimated_toeic_score := none } := by
    have hl : responsesOfKind scenarioDB [scenarioR1, scenarioR2, scenarioR3]
        .listening = [scenarioR3] := by
      simp [responsesOfKind, get_question_by_id, scenarioR1, scenarioR2,
        scenarioR3, scenarioQ1, scenarioQ2, scenarioQ3, List.filter,
        List.find?, qkind_beq_self, qkind_beq_false]
    have hg : responsesOfKind scenarioDB [scenarioR1, scenarioR2, scenarioR3]
        .grammar = [scenarioR1, scenarioR2] := by
      simp [responsesOfKind, get_question_by_id, scenarioR1, scenarioR2,
        scenarioR3, scenarioQ1, scenarioQ2, scenarioQ3, List.filter,
        List.find?, qkind_beq_self, qkind_beq_false]
    have hv : responsesOfKind scenarioDB [scenarioR1, scenarioR2, scenarioR3]
        .vocabulary = [] := by
      simp [responsesOfKind, get_question_by_id, scenarioR1, scenarioR2,
        scenarioR3, scenarioQ1, scenarioQ2, scenarioQ3, List.filter,
        List.find?, qkind_beq_self, qkind_beq_false]
    have hr : responsesOfKind scenarioDB [scenarioR1, scenarioR2, scenarioR3]
        .reading = [] := by
      simp [responsesOfKind, get_question_by_id, scenarioR1, scenarioR2,
        scenarioR3, scenarioQ1, scenarioQ2, scenarioQ3, List.filter,
        List.find?, qkind_beq_self, qkind_beq_false]
    simp only [setKindAccuracies, kindOrder, List.foldl, setKindStep,
      hl, hg, hv, hr]
    simp [Progress.setKindAccuracy, scenarioR1, scenarioR2, scenarioR3,
      List.filter]
  simp only [recomputed_progress, hfl, hrs, hfp]
  simp only [scenarioR1, scenarioR2, scenarioR3] at hset
  norm_num [scenarioR1, scenarioR2, scenarioR3, List.filter, Progress.new]
  simp only [hset]
  norm_num [estimate_toeic_score, pyInt]

/-- C1 counterexample: on the spec's own end-to-end scenario (3 responses
today: 2 correct grammar, 1 incorrect listening) the recompute writes
`Learner.current_score = 566`, not 567 as claimed, and
`accuracy_percentage = 200/3 ≈ 66.667`, not 66.7: the code computes
`int(500 + (200/3 − 60) × 10) = int(566.67) = 566`. -/
theorem update_daily_progress_scenario_counterexample :
    ((update_daily_progress scenarioDB 1 (21/2)).users.map
        User.current_estimated_score = [566] ∧ (566 : ℤ) ≠ 567) ∧
    ((update_daily_progress scenarioDB 1 (21/2)).progress.map
        Progress.accuracy_percentage = [200/3] ∧ (200/3 : ℚ) ≠ 667/10) := by
  have hrp := scenario_recomputed_progress
  have hfl : (⌊(21/2 : ℚ)⌋ : ℚ) = 10 := by norm_num
  have hrs : today_responses scenarioDB 1 10 =
      [scenarioR1, scenarioR2, scenarioR3] := by
    simp [today_responses, scenarioDB, scenarioUser, scenarioR1, scenarioR2,
      scenarioR3, List.filter]
    norm_num
  have hfp : findProgress scenarioDB 1 10 = none := by
    simp [findProgress, scenarioDB]
  refine ⟨⟨?_, by norm_num⟩, ⟨?_, by norm_num⟩⟩ <;>
  · simp only [update_daily_progress, hfl, hrs, hfp, hrp]
    simp [scenarioDB, scenarioUser]

/-- C1 (amended): for every learner and UTC day — under the invariant
that no stored response postdates the day (`answered_at` is the insertion
time) and with the learner's user row present — the recompute aggregates
exactly the learner's responses with `answered_at` in `[day, day + 1)`:
it sets `questions_attempted` to their count, `questions_correct` to the
count of correct ones, `accuracy_percentage` to their ratio × 100, each
per-kind accuracy to that kind's correct ratio × 100 (untouched for kinds
with no responses), sets the estimated score from `accuracy_percentage`
and writes that score to the learner's `current_estimated_score`.  (On
the spec's 3-response scenario the resulting score is 566, not 567, and
the accuracy is 200/3 ≈ 66.67, not 66.7 — see the counterexample.) -/
theorem update_daily_progress_spec (db : DB) (user_id : ℕ) (now : ℚ)
    (hfut : ∀ r ∈ db.responses, r.answered_at < (⌊now⌋ : ℚ) + 1)
    (huser : db.users.any (fun u => u.id == user_id) = true)
    (hne : window_responses db user_id ⌊now⌋ ≠ []) :
    findProgress (update_daily_progress db user_id now) user_id ⌊now⌋ =
      some (recomputed_progress db user_id now) ∧
    (recomputed_progress db user_id now).questions_attempted =
      (window_responses db user_id ⌊now⌋).length ∧
    (recomputed_progress db user_id now).questions_correct =
      ((window_responses db user_id ⌊now⌋).filter (·.is_correct)).length ∧
    (recomputed_progress db user_id now).accuracy_percentage =
      (((window_responses db user_id ⌊now⌋).filter (·.is_correct)).length : ℚ) /
        ((window_responses db user_id ⌊now⌋).length : ℚ) * 100 ∧
    (∀ k : QKind,
      (recomputed_progress db user_id now).kindAccuracy k =
        if (responsesOfKind db (window_responses db user_id ⌊now⌋) k).isEmpty
        then
          ((findProgress db user_id ⌊now⌋).getD
            (Progress.new user_id ⌊now⌋)).kindAccuracy k
        else
          some ((((responsesOfKind db (window_responses db user_id ⌊now⌋)
              k).filter (·.is_correct)).length : ℚ) /
            ((responsesOfKind db (window_responses db user_id ⌊now⌋)
              k).length : ℚ) * 100)) ∧
    (recomputed_progress db user_id now).estimated_toeic_score =
      some (estimate_toeic_score
        (recomputed_progress db user_id now).accuracy_percentage) ∧
    ∀ u ∈ (update_daily_progress db user_id now).users, u.id = user_id →
      u.current_estimated_score =
        estimate_toeic_score
          (recomputed_progress db user_id now).accuracy_percentage := by
  have hwin : today_responses db user_id (⌊now⌋ : ℚ) =
      window_responses db user_id ⌊now⌋ :=
    today_responses_eq_window db user_id _ hfut huser
  have hne' : today_responses db user_id (⌊now⌋ : ℚ) ≠ [] := by
    rw [hwin]; exact hne
  have hempw : (window_responses db user_id ⌊now⌋).isEmpty = false := by
    cases hw : window_responses db user_id ⌊now⌋ with
    | nil => exact absurd hw hne
    | cons a l => rfl
  have hemp : (today_responses db user_id (⌊now⌋ : ℚ)).isEmpty = false := by
    rw [hwin]; exact hempw
  have hp' : recomputed_progress db user_id now =
      { setKindAccuracies db (window_responses db user_id ⌊now⌋)
          { (findProgress db user_id (⌊now⌋ : ℚ)).getD
              (Progress.new user_id ⌊now⌋) with
            questions_attempted := (window_responses db user_id ⌊now⌋).length,
            questions_correct :=
              ((window_responses db user_id ⌊now⌋).filter
                (·.is_correct)).length,
            accuracy_percentage :=
              (((window_responses db user_id ⌊now⌋).filter
                  (·.is_correct)).length : ℚ) /
                ((window_responses db user_id ⌊now⌋).length : ℚ) * 100 } with
        estimated_toeic_score := some (estimate_toeic_score
          ((((window_responses db user_id ⌊now⌋).filter
              (·.is_correct)).length : ℚ) /
            ((window_responses db user_id ⌊now⌋).length : ℚ) * 100)) } := by
    simp only [recomputed_progress, hwin, hempw, Bool.false_eq_true, if_false]
  have hacc : (recomputed_progress db user_id now).accuracy_percentage =
      (((window_responses db user_id ⌊now⌋).filter
          (·.is_correct)).length : ℚ) /
        ((window_responses db user_id ⌊now⌋).length : ℚ) * 100 := by
    rw [hp']
    simp [setKindAccuracies_accuracy]
  have hest : (recomputed_progress db user_id now).estimated_toeic_score =
      some (estimate_toeic_score
        ((((window_responses db user_id ⌊now⌋).filter
            (·.is_correct)).length : ℚ) /
          ((window_responses db user_id ⌊now⌋).length : ℚ) * 100)) := by
    rw [hp']
  have husers : (update_daily_progress db user_id now).users =
      db.users.map (fun u =>
        if u.id == user_id then
          { u with current_estimated_score := Option.getD (recomputed_progress db user_id now).estimated_toeic_score u.current_estimated_score }
        else u) := by
    simp only [update_daily_progress, hemp, Bool.false_eq_true, if_false]
  refine ⟨findProgress_update db user_id now, ?_, ?_, hacc, ?_, ?_, ?_⟩
  · rw [hp']
    simp [setKindAccuracies_attempted]
  · rw [hp']
    simp [setKindAccuracies_correct]
  · intro k
    rw [hp', kindAccuracy_estimated_update, setKindAccuracies_kindAccuracy,
      kindAccuracy_counts_update]
  · rw [hest, hacc]
  · intro u hu hid
    rw [husers] at hu
    obtain ⟨u0, hu0, rfl⟩ := List.mem_map.mp hu
    by_cases h : u0.id = user_id
    · simp only [h, beq_self_eq_true, if_true]
      simp [hest, hacc]
    · have hfalse : (u0.id == user_id) = false := by simp [h]
      simp only [hfalse, Bool.false_eq_true, if_false] at hid
      exact absurd hid h

/-- C1 witness: the amended recompute theorem instantiated on the spec's
end-to-end scenario database (3 responses today), whose hypotheses hold
concretely; the recomputed row is the stored row for the day and counts
all 3 window responses. -/
theorem update_daily_progress_spec_witness :
    findProgress (update_daily_progress scenarioDB 1 (21/2)) 1 ⌊(21/2 : ℚ)⌋ =
      some (recomputed_progress scenarioDB 1 (21/2)) ∧
    (recomputed_progress scenarioDB 1 (21/2)).questions_attempted = 3 := by
  have hfl : ((⌊(21/2 : ℚ)⌋ : ℤ) : ℚ) = 10 := by norm_num
  have hwr : window_responses scenarioDB 1 ⌊(21/2 : ℚ)⌋ =
      [scenarioR1, scenarioR2, scenarioR3] := by
    simp only [hfl]
    simp [window_responses, scenarioDB, scenarioR1, scenarioR2, scenarioR3,
      List.filter]
    norm_num
  have hf : ∀ r ∈ scenarioDB.responses,
      r.answered_at < ((⌊(21/2 : ℚ)⌋ : ℤ) : ℚ) + 1 := by
    intro r hr
    simp only [hfl]
    simp only [scenarioDB, List.mem_cons, List.not_mem_nil, or_false] at hr
    rcases hr with rfl | rfl | rfl <;> norm_num [scenarioR1, scenarioR2,
      scenarioR3]
  have hu : scenarioDB.users.any (fun u => u.id == 1) = true := by
    simp [scenarioDB, scenarioUser]
  have hn : window_responses scenarioDB 1 ⌊(21/2 : ℚ)⌋ ≠ [] := by
    rw [hwr]
    simp
  have H := update_daily_progress_spec scenarioDB 1 (21/2) hf hu hn
  have h2 := H.2.1
  rw [hwr] at h2
  exact ⟨H.1, by simpa using h2⟩

/-- C4: `estimate_toeic_score` is exactly the spec's piecewise-linear
mapping (the two-sided range conditions of the spec coincide with the
cascaded `elif`s of the code), and it takes the five values the spec
lists: 95 ↦ 850, 85 ↦ 750, 75 ↦ 650, 65 ↦ 550, 50 ↦ 483. -/
theorem estimate_toeic_score_spec :
    (∀ accuracy : ℚ, estimate_toeic_score accuracy = estimate_score_spec accuracy) ∧
    estimate_toeic_score 95 = 850 ∧
    estimate_toeic_score 85 = 750 ∧
    estimate_toeic_score 75 = 650 ∧
    estimate_toeic_score 65 = 550 ∧
    estimate_toeic_score 50 = 483 := by
  refine ⟨?_, by norm_num [estimate_toeic_score, pyInt],
    by norm_num [estimate_toeic_score, pyInt],
    by norm_num [estimate_toeic_score, pyInt],
    by norm_num [estimate_toeic_score, pyInt],
    by norm_num [estimate_toeic_score, pyInt]⟩
  intro accuracy
  by_cases h90 : 90 ≤ accuracy
  · simp [estimate_toeic_score, estimate_score_spec, ge_iff_le, h90]
  · by_cases h80 : 80 ≤ accuracy
    · simp [estimate_toeic_score, estimate_score_spec, ge_iff_le, h90, h80,
        not_le.mp h90]
    · by_cases h70 : 70 ≤ accuracy
      · simp [estimate_toeic_score, estimate_score_spec, ge_iff_le, h90, h80,
          h70, not_le.mp h80]
      · by_cases h60 : 60 ≤ accuracy
        · simp [estimate_toeic_score, estimate_score_spec, ge_iff_le, h90,
            h80, h70, h60, not_le.mp h70]
        · simp [estimate_toeic_score, estimate_score_spec, ge_iff_le, h90,
            h80, h70, h60]

/-- C5: at each branch boundary (60, 70, 80, 90) the branch formula just
below the boundary and the branch at-or-above the boundary (the one
`estimate_toeic_score` actually takes there) differ by at most 1 after
integer truncation. -/
theorem estimate_toeic_score_boundary_continuity :
    ((branch80 90 - branch90 90).natAbs ≤ 1 ∧
      estimate_toeic_score 90 = branch90 90) ∧
    ((branch70 80 - branch80 80).natAbs ≤ 1 ∧
      estimate_toeic_score 80 = branch80 80) ∧
    ((branch60 70 - branch70 70).natAbs ≤ 1 ∧
      estimate_toeic_score 70 = branch70 70) ∧
    ((branchLow 60 - branch60 60).natAbs ≤ 1 ∧
      estimate_toeic_score 60 = branch60 60) := by
  have b90 : branch90 90 = 800 := by norm_num [branch90, pyInt]
  have b80h : branch80 90 = 800 := by norm_num [branch80, pyInt]
  have b80 : branch80 80 = 700 := by norm_num [branch80, pyInt]
  have b70h : branch70 80 = 700 := by norm_num [branch70, pyInt]
  have b70 : branch70 70 = 600 := by norm_num [branch70, pyInt]
  have b60h : branch60 70 = 600 := by norm_num [branch60, pyInt]
  have b60 : branch60 60 = 500 := by norm_num [branch60, pyInt]
  have blo : branchLow 60 = 500 := by norm_num [branchLow, pyInt]
  have e90 : estimate_toeic_score 90 = 800 := by
    norm_num [estimate_toeic_score, pyInt]
  have e80 : estimate_toeic_score 80 = 700 := by
    norm_num [estimate_toeic_score, pyInt]
  have e70 : estimate_toeic_score 70 = 600 := by
    norm_num [estimate_toeic_score, pyInt]
  have e60 : estimate_toeic_score 60 = 500 := by
    norm_num [estimate_toeic_score, pyInt]
  rw [b90, b80h, b80, b70h, b70, b60h, b60, blo, e90, e80, e70, e60]
  norm_num

/-- C2: whenever `question_id` does not resolve to a stored `Question`,
`save_response` fails with the `NotFound` error — surfaced to its
immediate caller as the result of the call — and in particular never
returns a success carrying a database, so no `Response` is persisted. -/
theorem save_response_missing_question (db : DB) (user_id question_id : ℕ)
    (user_answer : String) (time_taken : Option ℕ) (now : ℚ)
    (h : get_question_by_id db question_id = none) :
    save_response db user_id question_id user_answer time_taken now =
      .error .notFound ∧
    ∀ (db' : DB) (resp : Response),
      save_response db user_id question_id user_answer time_taken now ≠
        .ok (db', resp) := by
  have he : save_response db user_id question_id user_answer time_taken now =
      .error .notFound := by
    unfold save_response
    rw [h]
  exact ⟨he, fun db' resp hok => by rw [he] at hok; exact Except.noConfusion hok⟩

/-- A one-question database used by the C2 witness: a single grammar
question with id 7 and correct answer A. -/
def dbOneQuestion : DB :=
  { users := [],
    questions := [{ id := 7,
                    question_type := .grammar,
                    difficulty := "intermediate",
                    question_text := "q",
                    correct_answer := "A",
                    used_count := 0 }],
    responses := [],
    progress := [] }

/-- C2 witness: on `dbOneQuestion` (whose only question has id 7), asking
to answer question 9 fails with `NotFound`. -/
theorem save_response_missing_question_witness :
    get_question_by_id dbOneQuestion 9 = none ∧
    save_response dbOneQuestion 1 9 "A" none 0 = .error .notFound := by
  have h : get_question_by_id dbOneQuestion 9 = none := by
    simp [get_question_by_id, dbOneQuestion, List.find?]
  exact ⟨h, (save_response_missing_question _ 1 9 "A" none 0 h).1⟩

/-- The helper `get_or_create_user` only touches the `users` table. -/
theorem get_or_create_user_tables (db : DB) (tg : ℤ)
    (un fn : Option String) (now : ℚ) :
    (get_or_create_user db tg un fn now).1.questions = db.questions ∧
    (get_or_create_user db tg un fn now).1.responses = db.responses ∧
    (get_or_create_user db tg un fn now).1.progress = db.progress := by
  cases h : db.users.find? (fun u => u.telegram_id == tg) with
  | none => simp [get_or_create_user, h]
  | some u => simp [get_or_create_user, h]

/-- The daily-progress recompute leaves the `responses` and `questions`
tables unchanged. -/
theorem update_daily_progress_tables (db : DB) (uid : ℕ) (now : ℚ) :
    (update_daily_progress db uid now).responses = db.responses ∧
    (update_daily_progress db uid now).questions = db.questions := by
  cases hemp : (today_responses db uid (⌊now⌋ : ℚ)).isEmpty with
  | true => simp [update_daily_progress, hemp]
  | false => simp [update_daily_progress, hemp]

/-- C3 counterexample: on a database with one learner and one question
(correct answer A), the inbound event `answer_1_E` — whose letter E is
not in {A, B, C, D} even after upper-casing — is not rejected: the
handler persists a `Response` row with `user_answer = "E"` and
`is_correct = false`, increments `Question.used_count` from 0 to 1, and
runs the daily-progress recompute (a `Progress` row appears). -/
theorem handle_answer_invalid_letter_counterexample :
    ((handle_answer dbAnswer 42 "answer_1_E" 10).responses.map
        Response.user_answer = ["E"]) ∧
    ((handle_answer dbAnswer 42 "answer_1_E" 10).responses.map
        Response.is_correct = [false]) ∧
    ((handle_answer dbAnswer 42 "answer_1_E" 10).questions.map
        Question.used_count = [1] ∧
      dbAnswer.questions.map Question.used_count = [0]) ∧
    ((handle_answer dbAnswer 42 "answer_1_E" 10).progress.length = 1 ∧
      dbAnswer.progress.length = 0) ∧
    pyUpper "E" ∉ (["A", "B", "C", "D"] : List String) := by
  have hsplit : pySplit "answer_1_E" '_' = ["answer", "1", "E"] := by decide
  have hparse : pyParseNat "1" = some 1 := by decide
  have hfl : ((⌊(10 : ℚ)⌋ : ℤ) : ℚ) = 10 := by norm_num
  have hup : (pyUpper "E" == pyUpper "A") = false := by decide
  have hupE : pyUpper "E" = "E" := by decide
  have hupA : pyUpper "A" = "A" := by decide
  have hEA : ¬(("E" : String) = "A") := by decide
  refine ⟨?_, ?_, ⟨?_, by simp [dbAnswer, answerQuestion]⟩,
    ⟨?_, by simp [dbAnswer]⟩, by decide⟩ <;>
  norm_num [handle_answer, hsplit, hparse, hfl, hup, hupE, hupA, hEA,
    get_or_create_user, dbAnswer, answerUser, answerQuestion, save_response,
    get_question_by_id, update_daily_progress, recomputed_progress,
    findProgress, today_responses, Progress.new, setKindAccuracies,
    setKindStep, responsesOfKind, kindOrder, Progress.setKindAccuracy,
    estimate_toeic_score, pyInt, List.filter, List.find?, qkind_beq_self,
    qkind_beq_false]

/-- C3 (amended): the interaction handler performs no validation of the
answer letter.  For every inbound answer event with well-formed callback
data (three `_`-separated parts headed `answer`, numeric question id
resolving to a stored question), it persists a `Response` whose stored
answer is the upper-cased letter and whose `is_correct` compares that
letter with the correct answer — so a letter outside {A, B, C, D} is
recorded as an incorrect answer rather than rejected. -/
theorem handle_answer_no_letter_validation (db : DB) (tg : ℤ)
    (data s letter : String) (qid : ℕ) (q : Question) (now : ℚ)
    (hsplit : pySplit data '_' = ["answer", s, letter])
    (hparse : pyParseNat s = some qid)
    (hq : get_question_by_id db qid = some q) :
    (handle_answer db tg data now).responses =
      db.responses ++
        [{ user_id := (get_or_create_user db tg none none now).2.id,
           question_id := qid, user_answer := pyUpper letter,
           is_correct := pyUpper letter == pyUpper q.correct_answer,
           time_taken_seconds := none, answered_at := now }] ∧
    (pyUpper letter ∉ (["A", "B", "C", "D"] : List String) →
      q.correct_answer ∈ (["A", "B", "C", "D"] : List String) →
      ∀ r ∈ (handle_answer db tg data now).responses, r ∉ db.responses →
        r.is_correct = false) := by
  have hq1 : get_question_by_id (get_or_create_user db tg none none now).1
      qid = some q := by
    unfold get_question_by_id
    rw [(get_or_create_user_tables db tg none none now).1]
    exact hq
  have hresp : (handle_answer db tg data now).responses =
      db.responses ++
        [{ user_id := (get_or_create_user db tg none none now).2.id,
           question_id := qid, user_answer := pyUpper letter,
           is_correct := pyUpper letter == pyUpper q.correct_answer,
           time_taken_seconds := none, answered_at := now }] := by
    have hcond : ¬((["answer", s, letter] : List String).length ≠ 3 ∨
        (["answer", s, letter] : List String).head? ≠ some "answer") := by
      simp
    simp only [handle_answer, hsplit, hcond, if_false, List.getD,
      List.get?_cons_succ, List.get?_cons_zero, Option.getD_some, hparse]
    simp only [save_response, hq1]
    rw [(update_daily_progress_tables _ _ _).1]
    rw [(get_or_create_user_tables db tg none none now).2.1]
  refine ⟨hresp, fun hletter hcorrect r hr hrnew => ?_⟩
  rw [hresp] at hr
  rcases List.mem_append.mp hr with hold | hnew
  · exact absurd hold hrnew
  · have hc' := hcorrect
    simp only [List.mem_cons, List.not_mem_nil, or_false] at hc'
    have hcu : pyUpper q.correct_answer = q.correct_answer := by
      rcases hc' with h | h | h | h <;> rw [h] <;> decide
    have hne2 : (pyUpper letter == pyUpper q.correct_answer) = false := by
      rw [hcu]
      cases hbeq : pyUpper letter == q.correct_answer with
      | false => rfl
      | true =>
        rw [beq_iff_eq] at hbeq
        rw [← hbeq] at hcorrect
        exact absurd hcorrect hletter
    rw [List.mem_singleton] at hnew
    rw [hnew]
    exact hne2

/-- C3 witness: the amended no-validation theorem instantiated on the
concrete event `answer_1_E`: the handler persists exactly one `Response`
storing the letter E and marked incorrect. -/
theorem handle_answer_no_letter_validation_witness :
    (handle_answer dbAnswer 42 "answer_1_E" 10).responses =
      [{ user_id := 1, question_id := 1, user_answer := pyUpper "E",
         is_correct := pyUpper "E" == pyUpper "A",
         time_taken_seconds := none, answered_at := 10 }] ∧
    ∀ r ∈ (handle_answer dbAnswer 42 "answer_1_E" 10).responses,
      r ∉ dbAnswer.responses → r.is_correct = false := by
  have hq : get_question_by_id dbAnswer 1 = some answerQuestion := by
    simp [get_question_by_id, dbAnswer, answerQuestion, List.find?]
  have H := handle_answer_no_letter_validation dbAnswer 42 "answer_1_E"
    "1" "E" 1 answerQuestion 10 (by decide) (by decide) hq
  have hid : (get_or_create_user dbAnswer 42 none none 10).2.id = 1 := by
    simp [get_or_create_user, dbAnswer, answerUser, List.find?]
  constructor
  · rw [H.1, hid]
    simp [dbAnswer, answerQuestion]
  · exact H.2 (by decide) (by simp [answerQuestion])

/-- Inserting an element whose first-seen index is below everything in an
already stably-sorted list keeps the list stably sorted. -/
theorem orderedInsert_pairwise_stable (x : QKind × ℚ) :
    ∀ s : List (QKind × ℚ), List.Sorted valLE s → s.Pairwise stableR →
      (∀ y ∈ s, kindIdx x.1 < kindIdx y.1) →
      (List.orderedInsert valLE x s).Pairwise stableR
  | [], _, _, _ => List.pairwise_singleton _ _
  | b :: t, hsort, hpw, hidx => by
    by_cases hab : valLE x b
    · rw [List.orderedInsert, if_pos hab]
      refine List.pairwise_cons.mpr ⟨?_, hpw⟩
      intro z hz
      rcases List.mem_cons.mp hz with rfl | hz
      · rcases lt_or_eq_of_le hab with h | h
        · exact Or.inl h
        · exact Or.inr ⟨h, hidx z (List.mem_cons_self _ _)⟩
      · have hbz : valLE b z := (List.sorted_cons.mp hsort).1 z hz
        have hxz : x.2 ≤ z.2 := le_trans hab hbz
        rcases lt_or_eq_of_le hxz with h | h
        · exact Or.inl h
        · exact Or.inr ⟨h, hidx z (List.mem_cons_of_mem _ hz)⟩
    · rw [List.orderedInsert, if_neg hab]
      have hbx : b.2 < x.2 := lt_of_not_le hab
      refine List.pairwise_cons.mpr ⟨?_, ?_⟩
      · intro z hz
        rcases (List.mem_orderedInsert valLE).mp hz with rfl | hz
        · exact Or.inl hbx
        · exact (List.pairwise_cons.mp hpw).1 z hz
      · exact orderedInsert_pairwise_stable x t (List.sorted_cons.mp hsort).2
          (List.Pairwise.of_cons hpw)
          (fun y hy => hidx y (List.mem_cons_of_mem _ hy))

/-- Insertion sort by value is stable: a list whose first-seen indices
increase comes out sorted by value with ties in first-seen order. -/
theorem insertionSort_pairwise_stable :
    ∀ l : List (QKind × ℚ), l.Pairwise idxLt →
      (List.insertionSort valLE l).Pairwise stableR
  | [], _ => List.Pairwise.nil
  | a :: l, hpw => by
    rw [List.insertionSort]
    apply orderedInsert_pairwise_stable
    · exact List.sorted_insertionSort valLE l
    · exact insertionSort_pairwise_stable l (List.Pairwise.of_cons hpw)
    · intro y hy
      rw [List.mem_insertionSort] at hy
      exact (List.pairwise_cons.mp hpw).1 y hy

/-- The pre-sort entry list of `get_weak_areas` (dict insertion order)
has strictly increasing first-seen kind indices. -/
theorem weak_pairs_pairwise_idx (records : List Progress) :
    (kindOrder.filterMap (fun k =>
      let accuracies := kindObservations records k
      if accuracies.isEmpty then none
      else some (k, accuracies.sum / accuracies.length))).Pairwise idxLt := by
  by_cases h1 : kindObservations records .listening = [] <;>
  by_cases h2 : kindObservations records .grammar = [] <;>
  by_cases h3 : kindObservations records .vocabulary = [] <;>
  by_cases h4 : kindObservations records .reading = [] <;>
  simp [kindOrder, List.filterMap_cons, h1, h2, h3, h4, idxLt, kindIdx,
    List.pairwise_cons]

/-- Every entry of the weak-area map comes from a kind with observations
and carries their arithmetic mean. -/
theorem mem_weakAreasOf {records : List Progress} {k : QKind} {v : ℚ}
    (h : (k, v) ∈ weakAreasOf records) :
    (kindObservations records k).isEmpty = false ∧
    v = (kindObservations records k).sum /
        (kindObservations records k).length := by
  unfold weakAreasOf at h
  by_cases hemp : records.isEmpty = true
  · rw [if_pos hemp] at h
    exact absurd h (List.not_mem_nil _)
  · rw [if_neg hemp, List.mem_insertionSort] at h
    obtain ⟨k0, hk0, hf⟩ := List.mem_filterMap.mp h
    by_cases hk : (kindObservations records k0).isEmpty = true
    · simp only [hk, if_true] at hf
      exact absurd hf (Option.noConfusion)
    · simp only [hk, if_false] at hf
      obtain ⟨rfl, rfl⟩ := Prod.mk.injEq .. |>.mp (Option.some.injEq .. |>.mp hf)
      exact ⟨Bool.not_eq_true _ |>.mp hk, rfl⟩

/-- C6: `get_weak_areas` never contains a kind with zero non-null per-day
observations in the window; every included kind maps to the arithmetic
mean of its non-null per-day accuracies; the output is non-decreasing by
that average; and ties are broken by the fixed first-seen kind order
(listening, grammar, vocabulary, reading). -/
theorem get_weak_areas_spec (db : DB) (tg : ℤ) (days : ℕ) (now : ℚ) :
    (∀ k : QKind, ∀ v : ℚ, (k, v) ∈ get_weak_areas db tg days now →
      kindObservations (get_user_progress db tg days now) k ≠ [] ∧
      v = (kindObservations (get_user_progress db tg days now) k).sum /
          (kindObservations (get_user_progress db tg days now) k).length) ∧
    List.Pairwise (fun a b => a.2 ≤ b.2) (get_weak_areas db tg days now) ∧
    List.Pairwise stableR (get_weak_areas db tg days now) := by
  refine ⟨?_, ?_, ?_⟩
  · intro k v h
    obtain ⟨h1, h2⟩ := mem_weakAreasOf h
    refine ⟨fun hn => ?_, h2⟩
    rw [hn] at h1
    simp at h1
  · unfold get_weak_areas weakAreasOf
    by_cases hemp : (get_user_progress db tg days now).isEmpty = true
    · rw [if_pos hemp]
      exact List.Pairwise.nil
    · rw [if_neg hemp]
      exact (List.sorted_insertionSort valLE _).imp (fun h => h)
  · unfold get_weak_areas weakAreasOf
    by_cases hemp : (get_user_progress db tg days now).isEmpty = true
    · rw [if_pos hemp]
      exact List.Pairwise.nil
    · rw [if_neg hemp]
      exact insertionSort_pairwise_stable _ (weak_pairs_pairwise_idx _)

/-- C6 witness: on a learner with two progress rows (listening 50 and 70,
grammar 80 on one day, vocabulary 80 on the other, reading never
observed), the weak-area map is exactly
`[(listening, 60), (grammar, 80), (vocabulary, 80)]` — reading omitted,
listening's mean (50+70)/2 = 60 first, the 80-80 tie in kind order — and
the grammar entry satisfies the membership property of the theorem. -/
theorem get_weak_areas_spec_witness :
    get_weak_areas dbProgress 42 7 10 =
      [(QKind.listening, 60), (QKind.grammar, 80), (QKind.vocabulary, 80)] ∧
    kindObservations (get_user_progress dbProgress 42 7 10) .grammar ≠ [] ∧
    (80 : ℚ) = (kindObservations (get_user_progress dbProgress 42 7 10)
        .grammar).sum /
      (kindObservations (get_user_progress dbProgress 42 7 10)
        .grammar).length := by
  have hrec : get_user_progress dbProgress 42 7 10 =
      [progressRow2, progressRow1] := by
    simp [get_user_progress, dbProgress, answerUser, List.find?, List.filter,
      progressRow1, progressRow2, List.insertionSort, List.orderedInsert]
    norm_num
  have hl : kindObservations [progressRow2, progressRow1] .listening =
      [70, 50] := by
    simp [kindObservations, progressRow1, progressRow2, Progress.kindAccuracy]
  have hg : kindObservations [progressRow2, progressRow1] .grammar =
      [80] := by
    simp [kindObservations, progressRow1, progressRow2, Progress.kindAccuracy]
  have hv : kindObservations [progressRow2, progressRow1] .vocabulary =
      [80] := by
    simp [kindObservations, progressRow1, progressRow2, Progress.kindAccuracy]
  have hr : kindObservations [progressRow2, progressRow1] .reading = [] := by
    simp [kindObservations, progressRow1, progressRow2, Progress.kindAccuracy]
  have heval : get_weak_areas dbProgress 42 7 10 =
      [(QKind.listening, 60), (QKind.grammar, 80),
        (QKind.vocabulary, 80)] := by
    rw [get_weak_areas, hrec]
    rw [weakAreasOf]
    norm_num [kindOrder, List.filterMap_cons, hl, hg, hv, hr,
      List.insertionSort, List.orderedInsert, valLE]
  have hmem : (QKind.grammar, (80 : ℚ)) ∈ get_weak_areas dbProgress 42 7 10 := by
    rw [heval]
    simp
  have H := (get_weak_areas_spec dbProgress 42 7 10).1 QKind.grammar 80 hmem
  exact ⟨heval, H.1, H.2⟩

/-- The bounded loop never counts more days than it has fuel. -/
theorem streakLoop_le (active : ℕ → Bool) :
    ∀ (fuel i : ℕ), streakLoop active i fuel ≤ fuel
  | 0, _ => le_refl 0
  | fuel + 1, i => by
    rw [streakLoop]
    by_cases h : active i = true
    · rw [if_pos h]
      exact Nat.succ_le_succ (streakLoop_le active fuel (i + 1))
    · rw [if_neg h]
      exact Nat.zero_le _

/-- The loop counts exactly the length of the maximal run of `true`s
from its start, capped by the fuel. -/
theorem streakLoop_eq (active : ℕ → Bool) :
    ∀ (fuel N i : ℕ), N ≤ fuel →
      (∀ j, j < N → active (i + j) = true) →
      (N = fuel ∨ active (i + N) = false) →
      streakLoop active i fuel = N := by
  intro fuel
  induction fuel with
  | zero =>
    intro N i hle _ _
    rw [Nat.le_zero.mp hle]
    rfl
  | succ fuel ih =>
    intro N i hle hact hstop
    cases N with
    | zero =>
      rcases hstop with h | h
      · omega
      · rw [streakLoop, if_neg]
        rw [Nat.add_zero] at h
        simp [h]
    | succ m =>
      have h0 : active i = true := by
        have := hact 0 (Nat.succ_pos m)
        simpa using this
      rw [streakLoop, if_pos h0]
      have hm : streakLoop active (i + 1) fuel = m := by
        apply ih m (i + 1) (Nat.le_of_succ_le_succ hle)
        · intro j hj
          have := hact (j + 1) (Nat.succ_lt_succ hj)
          simpa [Nat.add_assoc, Nat.add_comm 1 j] using this
        · rcases hstop with h | h
          · exact Or.inl (Nat.succ_injective h)
          · refine Or.inr ?_
            simpa [Nat.add_assoc, Nat.add_comm 1 m] using h
      rw [hm]

/-- C7: the streak is 0 when today (UTC midnight) has no active
`DailyProgress` row; it is `N` whenever the last `N` consecutive days
including today are active and the day before that run is not; and the
backward walk is bounded at 365 days, so the result never exceeds 365. -/
theorem calculate_streak_spec :
    (∀ (db : DB) (uid : ℕ) (now : ℚ),
      hasActivity db uid ⌊now⌋ = false → calculate_streak db uid now = 0) ∧
    (∀ (db : DB) (uid : ℕ) (now : ℚ) (N : ℕ), N ≤ 365 →
      (∀ i : ℕ, i < N → hasActivity db uid ((⌊now⌋ : ℚ) - i) = true) →
      hasActivity db uid ((⌊now⌋ : ℚ) - N) = false →
      calculate_streak db uid now = N) ∧
    (∀ (db : DB) (uid : ℕ) (now : ℚ), calculate_streak db uid now ≤ 365) := by
  have main : ∀ (db : DB) (uid : ℕ) (now : ℚ) (N : ℕ), N ≤ 365 →
      (∀ i : ℕ, i < N → hasActivity db uid ((⌊now⌋ : ℚ) - i) = true) →
      hasActivity db uid ((⌊now⌋ : ℚ) - N) = false →
      calculate_streak db uid now = N := by
    intro db uid now N hle hact hstop
    unfold calculate_streak
    apply streakLoop_eq _ 365 N 0 hle
    · intro j hj
      simpa using hact j hj
    · rcases Nat.lt_or_ge N 365 with h | h
      · refine Or.inr ?_
        simpa using hstop
      · exact Or.inl (le_antisymm hle h)
  refine ⟨?_, main, ?_⟩
  · intro db uid now h0
    apply main db uid now 0 (Nat.zero_le _) (fun i hi => absurd hi (Nat.not_lt_zero i))
    simpa using h0
  · intro db uid now
    unfold calculate_streak
    exact streakLoop_le _ 365 0

/-- C7 witness: on the two-row database (active progress rows on days 9
and 10, nothing on day 8), the streak computed at time 10.5 is exactly
2. -/
theorem calculate_streak_spec_witness :
    calculate_streak dbProgress 1 (21/2) = 2 := by
  have hfl : ((⌊(21/2 : ℚ)⌋ : ℤ) : ℚ) = 10 := by norm_num
  apply (calculate_streak_spec.2.1) dbProgress 1 (21/2) 2 (by norm_num)
  · intro i hi
    interval_cases i <;>
      norm_num [hfl, hasActivity, dbProgress, progressRow1, progressRow2,
        List.any]
  · simp only [hfl]
    simp [hasActivity, dbProgress, progressRow1, progressRow2, List.any]
    norm_num

set_option maxHeartbeats 2000000 in
/-- A type-correct `setattr` makes the attribute read back as the
assigned value. -/
theorem getattr_setattr_same (u : User) (k : String) (v : PyValue)
    (hk : k ∈ userAttrNames) (hwt : wellTypedAttr k v = true) :
    getattrUser (setattrUser u k v) k = some v := by
  simp only [userAttrNames, List.mem_cons, List.not_mem_nil, or_false] at hk
  rcases hk with rfl|rfl|rfl|rfl|rfl|rfl|rfl|rfl|rfl|rfl|rfl|rfl <;>
    cases v <;>
    first
      | rfl
      | exact Bool.noConfusion hwt
      | exact congrArg (fun z => some (PyValue.int z))
          (Int.toNat_of_nonneg (of_decide_eq_true hwt))

set_option maxHeartbeats 4000000 in
/-- A `setattr` on one attribute leaves every other attribute
unchanged. -/
theorem getattr_setattr_ne (u : User) (a k : String) (v : PyValue)
    (ha : a ∈ userAttrNames) (hk : k ∈ userAttrNames) (hne : a ≠ k) :
    getattrUser (setattrUser u k v) a = getattrUser u a := by
  simp only [userAttrNames, List.mem_cons, List.not_mem_nil, or_false] at ha hk
  rcases ha with rfl|rfl|rfl|rfl|rfl|rfl|rfl|rfl|rfl|rfl|rfl|rfl <;>
    rcases hk with rfl|rfl|rfl|rfl|rfl|rfl|rfl|rfl|rfl|rfl|rfl|rfl <;>
    first
      | exact absurd rfl hne
      | (cases v <;> rfl)



/-- The kwargs loop silently ignores keys that name no `User`
attribute: folding over the kwargs equals folding over only the known
keys. -/
theorem foldl_applyKwarg_filter :
    ∀ (kvs : List (String × PyValue)) (u : User),
      kvs.foldl applyKwarg u =
        (kvs.filter (fun kv => decide (kv.1 ∈ userAttrNames))).foldl
          applyKwarg u
  | [], _ => rfl
  | (k, v) :: rest, u => by
    rw [List.foldl_cons, List.filter_cons]
    by_cases hk : k ∈ userAttrNames
    · have hd : decide (k ∈ userAttrNames) = true := decide_eq_true hk
      simp only [hd, if_true]
      rw [List.foldl_cons]
      exact foldl_applyKwarg_filter rest _
    · have hd : decide (k ∈ userAttrNames) = false := decide_eq_false hk
      simp only [hd, Bool.false_eq_true, if_false]
      have hstep : applyKwarg u (k, v) = u := by
        unfold applyKwarg
        exact if_neg hk
      rw [hstep]
      exact foldl_applyKwarg_filter rest u

/-- Attributes named by no passed key keep their values through the
kwargs loop. -/
theorem foldl_applyKwarg_not_mem (a : String) (ha : a ∈ userAttrNames) :
    ∀ (kvs : List (String × PyValue)) (u : User),
      a ∉ kvs.map Prod.fst →
      getattrUser (kvs.foldl applyKwarg u) a = getattrUser u a
  | [], _, _ => rfl
  | (k, v) :: rest, u, hnot => by
    simp only [List.map_cons, List.mem_cons, not_or] at hnot
    rw [List.foldl_cons,
      foldl_applyKwarg_not_mem a ha rest _ hnot.2]
    unfold applyKwarg
    by_cases hk : k ∈ userAttrNames
    · rw [if_pos hk]
      exact getattr_setattr_ne u a k v ha hk hnot.1
    · rw [if_neg hk]

/-- Every passed key naming an attribute ends up set to its (type-
correct) value after the kwargs loop (keys distinct). -/
theorem foldl_applyKwarg_mem :
    ∀ (kvs : List (String × PyValue)) (u : User) (k : String) (v : PyValue),
      (kvs.map Prod.fst).Nodup →
      (∀ kv ∈ kvs, wellTypedAttr kv.1 kv.2 = true) →
      (k, v) ∈ kvs → k ∈ userAttrNames →
      getattrUser (kvs.foldl applyKwarg u) k = some v
  | [], _, _, _, _, _, hmem, _ => absurd hmem (List.not_mem_nil _)
  | (k0, v0) :: rest, u, k, v, hnd, hwt, hmem, hk => by
    rw [List.map_cons, List.nodup_cons] at hnd
    rcases List.mem_cons.mp hmem with heq | hmem'
    · obtain ⟨rfl, rfl⟩ := Prod.mk.injEq .. |>.mp heq
      rw [List.foldl_cons]
      rw [foldl_applyKwarg_not_mem k hk rest _ hnd.1]
      have hstep : applyKwarg u (k, v) = setattrUser u k v := by
        unfold applyKwarg
        exact if_pos hk
      rw [hstep]
      exact getattr_setattr_same u k v hk
        (hwt (k, v) (List.mem_cons_self _ _))
    · rw [List.foldl_cons]
      exact foldl_applyKwarg_mem rest _ k v hnd.2
        (fun kv hkv => hwt kv (List.mem_cons_of_mem _ hkv)) hmem' hk

/-- C10: `update_user_preferences` with an unknown telegram id raises no
error, changes nothing and returns the absent value (despite the
declared `User` return type); for a matching user it returns the folded
user, sets exactly the passed keys that name an existing `User`
attribute (distinct, type-correct keys), and silently ignores all other
keys. -/
theorem update_user_preferences_spec :
    (∀ (db : DB) (tg : ℤ) (kwargs : List (String × PyValue)),
      db.users.find? (fun u => u.telegram_id == tg) = none →
      update_user_preferences db tg kwargs = (db, none)) ∧
    (∀ (db : DB) (tg : ℤ) (kwargs : List (String × PyValue)) (u : User),
      db.users.find? (fun v => v.telegram_id == tg) = some u →
      (update_user_preferences db tg kwargs).2 =
        some (kwargs.foldl applyKwarg u)) ∧
    (∀ (kwargs : List (String × PyValue)) (u : User),
      kwargs.foldl applyKwarg u =
        (kwargs.filter (fun kv => decide (kv.1 ∈ userAttrNames))).foldl
          applyKwarg u) ∧
    (∀ (kwargs : List (String × PyValue)) (u : User) (k : String)
        (v : PyValue),
      (kwargs.map Prod.fst).Nodup →
      (∀ kv ∈ kwargs, wellTypedAttr kv.1 kv.2 = true) →
      (k, v) ∈ kwargs → k ∈ userAttrNames →
      getattrUser (kwargs.foldl applyKwarg u) k = some v) ∧
    (∀ (kwargs : List (String × PyValue)) (u : User) (a : String),
      a ∈ userAttrNames → a ∉ kwargs.map Prod.fst →
      getattrUser (kwargs.foldl applyKwarg u) a = getattrUser u a) := by
  refine ⟨?_, ?_, foldl_applyKwarg_filter, foldl_applyKwarg_mem,
    fun kvs u a ha hnot => foldl_applyKwarg_not_mem a ha kvs u hnot⟩
  · intro db tg kwargs hfind
    unfold update_user_preferences
    rw [hfind]
  · intro db tg kwargs u hfind
    unfold update_user_preferences
    rw [hfind]

/-- C10 witness: no user has telegram id 99, so the update returns the
untouched database and `none`; on the existing user, a passed
`timezone` is set and an unknown key changes nothing. -/
theorem update_user_preferences_spec_witness :
    update_user_preferences dbAnswer 99
        [("timezone", PyValue.str "UTC")] = (dbAnswer, none) ∧
    getattrUser
        ([("timezone", PyValue.str "UTC")].foldl
          applyKwarg answerUser) "timezone" = some (PyValue.str "UTC") ∧
    [("no_such_column", PyValue.int 1)].foldl applyKwarg answerUser =
      answerUser := by
  refine ⟨?_, ?_, ?_⟩
  · apply update_user_preferences_spec.1 dbAnswer 99
    simp [dbAnswer, answerUser, List.find?]
  · apply update_user_preferences_spec.2.2.2.1
    · simp
    · intro kv hkv
      rcases List.mem_cons.mp hkv with rfl | h
      · decide
      · exact absurd h (List.not_mem_nil _)
    · simp
    · decide
  · rw [update_user_preferences_spec.2.2.1 [("no_such_column", PyValue.int 1)]
      answerUser]
    rfl

/-- The per-learner loop attempts every user in order and records one
outcome each, regardless of which attempts raised. -/
theorem deliverFold_attempts (step : DB → User → DB × List String × Bool) :
    ∀ (us : List User) (db : DB) (msgs : List String)
      (outs : List (ℤ × Bool)),
      ((us.foldl (deliverStep step) (db, msgs, outs)).2.2).map Prod.fst =
        outs.map Prod.fst ++ us.map User.telegram_id
  | [], _, _, _ => by simp
  | u :: rest, db, msgs, outs => by
    rw [List.foldl_cons]
    show ((rest.foldl (deliverStep step) (deliverStep step (db, msgs, outs) u)).2.2).map Prod.fst = _
    rw [deliverStep]
    rw [deliverFold_attempts step rest _ _ _]
    simp

/-- C8: a generation failure on a single item is skipped without
aborting the rest: with the adapter failing on listening item 2 of 3 and
succeeding on all 5 grammar items, the learner's content is listening
items 1 and 3 plus all grammar items, every successful item persisted as
a `Question` (the final `questions` table is the old one plus exactly
the delivered content, saved item by item); and for every per-learner
step oracle — failures included — the cycle attempts every active
learner in order. -/
theorem scheduler_fault_isolation :
    (∀ (genL genG : ℕ → Option QPayload) (db : DB)
        (p0 p2 : QPayload) (pg : ℕ → QPayload),
      genL 0 = some p0 → genL 1 = none → genL 2 = some p2 →
      (∀ i, i < 5 → genG i = some (pg i)) →
      (generate_daily_content genL genG 3 5 db).2.1.map
          Question.question_text = [p0.question_text, p2.question_text] ∧
      (generate_daily_content genL genG 3 5 db).2.2.map
          Question.question_text =
        [(pg 0).question_text, (pg 1).question_text, (pg 2).question_text,
          (pg 3).question_text, (pg 4).question_text] ∧
      (generate_daily_content genL genG 3 5 db).1.questions =
        db.questions ++ (generate_daily_content genL genG 3 5 db).2.1 ++
          (generate_daily_content genL genG 3 5 db).2.2) ∧
    (∀ (weekday : ℕ) (wd : Bool)
        (step : DB → User → DB × List String × Bool) (db : DB),
      (wd = true ∨ weekday < 5) →
      ((deliver_to_all_users weekday wd step db).2.2).map Prod.fst =
        (get_all_active_users db).map User.telegram_id) := by
  constructor
  · intro genL genG db p0 p2 pg h0 h1 h2 hg
    have hg0 := hg 0 (by norm_num)
    have hg1 := hg 1 (by norm_num)
    have hg2 := hg 2 (by norm_num)
    have hg3 := hg 3 (by norm_num)
    have hg4 := hg 4 (by norm_num)
    have hr3 : List.range 3 = [0, 1, 2] := rfl
    have hr5 : List.range 5 = [0, 1, 2, 3, 4] := rfl
    refine ⟨?_, ?_, ?_⟩ <;>
      simp [generate_daily_content, hr3, hr5, h0, h1, h2, hg0, hg1, hg2,
        hg3, hg4, contentStep, save_question]
  · intro weekday wd step db hrun
    unfold deliver_to_all_users
    rw [if_neg]
    · exact (deliverFold_attempts step (get_all_active_users db) db [] []).trans
        (by simp)
    · rcases hrun with rfl | h
      · simp
      · intro hc
        exact absurd hc.2 (Nat.not_le_of_lt h)

/-- C9: with weekend delivery disabled and the trigger firing on
Saturday (weekday 5) or Sunday (6), the cycle performs no side effects:
the database (including the `questions` table) is returned unchanged, no
messages are sent, and no learner is attempted — Idle to Idle. -/
theorem weekend_skip_no_side_effects (weekday : ℕ) (wd : Bool)
    (step : DB → User → DB × List String × Bool) (db : DB)
    (hwk : weekday = 5 ∨ weekday = 6) (hwd : wd = false) :
    deliver_to_all_users weekday wd step db = (db, [], []) := by
  unfold deliver_to_all_users
  rw [if_pos]
  exact ⟨hwd, by rcases hwk with rfl | rfl <;> norm_num⟩

/-- C9 witness: on Saturday with a step that would persist a question
and send a message, nothing happens: the database comes back untouched
with zero messages and zero attempts. -/
theorem weekend_skip_no_side_effects_witness :
    deliver_to_all_users 5 false
      (fun d _ => ({ d with questions := d.questions ++ [answerQuestion] },
        ["daily content"], false)) dbAnswer = (dbAnswer, [], []) :=
  weekend_skip_no_side_effects 5 false _ dbAnswer (Or.inl rfl) rfl

/-- C8 witness: the scenario instantiated concretely — listening slot 2
fails, slots 1 and 3 and all five grammar slots succeed, and a cycle
whose single active learner raises still records that learner as
attempted. -/
theorem scheduler_fault_isolation_witness :
    (generate_daily_content (fun i => if i = 1 then none else some lPayload)
        (fun _ => some gPayload) 3 5 dbAnswer).2.1.map
      Question.question_text = ["L", "L"] ∧
    (generate_daily_content (fun i => if i = 1 then none else some lPayload)
        (fun _ => some gPayload) 3 5 dbAnswer).2.2.map
      Question.question_text = ["G", "G", "G", "G", "G"] ∧
    (deliver_to_all_users 2 false
        (fun d _ => (d, ["sent"], true)) dbAnswer).2.2.map Prod.fst =
      [(42 : ℤ)] := by
  have H := scheduler_fault_isolation.1
    (fun i => if i = 1 then none else some lPayload)
    (fun _ => some gPayload) dbAnswer lPayload lPayload (fun _ => gPayload)
    rfl rfl rfl (fun i _ => rfl)
  have H2 := scheduler_fault_isolation.2 2 false
    (fun d _ => (d, ["sent"], true)) dbAnswer (Or.inr (by norm_num))
  refine ⟨?_, ?_, ?_⟩
  · rw [H.1]; rfl
  · rw [H.2.1]; rfl
  · rw [H2]
    simp [get_all_active_users, dbAnswer, answerUser]

end ToeicBot
